import Mathlib

/-!
Verification development for the discord-napominalki-bot repository.

The two source files `discord_reminder_bot/main.py` and
`discord_reminder_bot/create_pages.py` are shallowly embedded below.
External collaborators (the Discord client, the APScheduler store, the
free-text date parser `parse_time`, the countdown renderer `calculate`,
and the webhook transport) are passed in as function parameters, exactly
in the role the source uses them.  Handlers are modelled as pure
functions from their inputs to the list of scheduler calls / Discord
sends they perform plus their final reply.
-/

namespace DRBot

/-- A value stored in a job's `kwargs` dict (Python values are ints,
strings, or `None`). -/
inductive KwargValue where
  | int (n : Int)
  | str (s : String)
  | null
deriving DecidableEq, Repr

/-- A job's `kwargs`: the Python dict, as its ordered key/value pairs. -/
abbrev Kwargs := List (String × KwargValue)

/-- Python `dict.get(key)`: `None` when the key is absent. -/
def kwGet (ks : Kwargs) (k : String) : KwargValue :=
  (ks.lookup k).getD KwargValue.null

/-- Look a key up and keep it only when it holds an int. -/
def kwInt (ks : Kwargs) (k : String) : Option Int :=
  match ks.lookup k with
  | some (KwargValue.int n) => some n
  | _ => none

/-- Look a key up and keep it only when it holds a string. -/
def kwStr (ks : Kwargs) (k : String) : Option String :=
  match ks.lookup k with
  | some (KwargValue.str s) => some s
  | _ => none

/-- A naive datetime, the fields Python's `datetime` exposes that the
source formats with `strftime`. -/
structure DT where
  year : Nat
  month : Nat
  day : Nat
  hour : Nat
  minute : Nat
  second : Nat
deriving DecidableEq, Repr

/-- Zero-pad a numeric field to two digits, as `strftime` does. -/
def pad2 (n : Nat) : String :=
  if n < 10 then "0" ++ toString n else toString n

/-- Rendering of `datetime.strftime("%Y-%m-%d %H:%M:%S")`. -/
def strftimeYmdHMS (d : DT) : String :=
  toString d.year ++ "-" ++ pad2 d.month ++ "-" ++ pad2 d.day ++ " "
    ++ pad2 d.hour ++ ":" ++ pad2 d.minute ++ ":" ++ pad2 d.second

/-- Rendering of `datetime.strftime("%Y-%m-%d %H:%M")`, the format used by the list view. -/
def strftimeYmdHM (d : DT) : String :=
  toString d.year ++ "-" ++ pad2 d.month ++ "-" ++ pad2 d.day ++ " "
    ++ pad2 d.hour ++ ":" ++ pad2 d.minute

/-- Python `str(x)` for an optional datetime (`None` prints as `"None"`). -/
def optDTStr : Option DT → String
  | none => "None"
  | some d => strftimeYmdHMS d

/-- Python `str(x)` for an optional int. -/
def optIntStr : Option Int → String
  | none => "None"
  | some n => toString n

/-- The arguments of `/remind cron` that define the cron trigger. -/
structure CronArgs where
  year : Option Int := none
  month : Option Int := none
  day : Option Int := none
  week : Option Int := none
  dayOfWeek : Option String := none
  hour : Option Int := none
  minute : Option Int := none
  second : Option Int := none
  startDate : Option String := none
  endDate : Option String := none
  timezone : Option String := none
  jitter : Option Int := none
deriving DecidableEq, Repr

/-- The arguments of `/remind interval` that define the interval trigger. -/
structure IntervalArgs where
  weeks : Int := 0
  days : Int := 0
  hours : Int := 0
  minutes : Int := 0
  seconds : Int := 0
  startDate : Option String := none
  endDate : Option String := none
  timezone : Option String := none
  jitter : Option Int := none
deriving DecidableEq, Repr

/-- The trigger attached to a stored job.  `date` is APScheduler's
`DateTrigger` with its fixed `run_date`; the recurring kinds carry the
parameters the commands passed. -/
inductive Trigger where
  | date (runDate : DT)
  | cron (args : CronArgs)
  | interval (args : IntervalArgs)
deriving DecidableEq, Repr

/-- Test `type(job.trigger) is DateTrigger`. -/
def Trigger.isDate : Trigger → Bool
  | .date _ => true
  | _ => false

/-- A job record as the scheduler stores it: id, trigger, kwargs, and the
possibly-cleared next run time (`None` when paused). -/
structure Job where
  id : String
  trigger : Trigger
  kwargs : Kwargs
  nextRunTime : Option DT := none
deriving DecidableEq, Repr

/-- Model of `scheduler.get_job(job_id)`. -/
def getJob (state : List Job) (jobId : String) : Option Job :=
  state.find? (fun j => j.id = jobId)

/-- A Discord channel as seen through the interactions library. -/
structure GChannel where
  id : Int
  name : String
deriving DecidableEq, Repr

/-- The guild data `create_pages` reads from the command context. -/
structure Guild where
  channels : List GChannel
deriving DecidableEq, Repr

/-- The part of a paginator page the claims inspect: which job it shows,
the rendered embed fields, and the button row (by `custom_id`, in order). -/
structure Page where
  jobId : String
  channelField : String
  messageField : String
  triggerField : String
  components : List String
deriving DecidableEq, Repr

/-- Truncation `message[:98] + ".."` when the message is longer than 98 characters. -/
def truncateMessage (m : String) : String :=
  if m.length > 98 then m.take 98 ++ ".." else m

/-- Comparison `int(channel.id) == job.kwargs.get("channel_id")`: comparing a
channel id with a missing or non-int kwarg is `False` in Python. -/
def channelMatches (job : Job) (ch : GChannel) : Bool :=
  match kwInt job.kwargs "channel_id" with
  | some c => ch.id = c
  | none => false

/-- The trigger time `create_pages` displays: the fixed `run_date` for a
`DateTrigger` job, `job.next_run_time` for cron/interval jobs. -/
def displayTriggerTime (job : Job) : Option DT :=
  match job.trigger with
  | .date d => some d
  | _ => job.nextRunTime

/-- Build the page for one job/channel pair, mirroring the embed and
button construction in `create_pages`.  `calcJob` is the countdown renderer
`calculate` from the (external to `src/`) countdown module. -/
def mkPage (calcJob : Job → String) (job : Job) (ch : GChannel) : Page :=
  let triggerTime := displayTriggerTime job
  let message := truncateMessage ((kwStr job.kwargs "message").getD "")
  let triggerField :=
    match triggerTime with
    | none => "_Paused_"
    | some t => strftimeYmdHM t ++ " (in " ++ calcJob job ++ ")"
  let baseComponents := ["edit", "remove"]
  let components :=
    if job.trigger.isDate then baseComponents
    else
      let pauseOrUnpause :=
        match job.nextRunTime with
        | none => "unpause"
        | some _ => "pause"
      baseComponents.insertIdx 1 pauseOrUnpause
  { jobId := job.id
    channelField := "#" ++ ch.name
    messageField := message
    triggerField := triggerField
    components := components }

/-- Model of `create_pages`: for every stored job, scan the guild's channels and
emit a page for each channel whose id equals the job's `channel_id`
kwarg. -/
def createPages (calcJob : Job → String) (guild : Guild) (jobs : List Job) :
    List Page :=
  jobs.flatMap (fun job =>
    guild.channels.filterMap (fun ch =>
      if channelMatches job ch then some (mkPage calcJob job ch) else none))

/-- A job is listed when some channel of the guild matches its
`channel_id` kwarg. -/
def jobListed (guild : Guild) (job : Job) : Bool :=
  guild.channels.any (fun ch => channelMatches job ch)

/-- Result of the black-box date parser `parse_time` (the `parse` module
is consumed as an external collaborator, per the spec). -/
structure ParsedTime where
  err : Bool := false
  errMsg : String := ""
  parsedTime : Option DT := none

/-- A scheduler mutation performed by the edit modal: `reschedule_job`
receives the formatted `run_date` string, `modify_job` the replacement
kwargs dict. -/
inductive ModalCall where
  | reschedule (id : String) (runDate : String)
  | modify (id : String) (kwargs : Kwargs)
deriving DecidableEq, Repr

/-- The outward result of a modal submission: a `ctx.send` reply, or an
uncaught `IndexError` from `response[1]` when the tuple is too short. -/
inductive ModalOutcome where
  | reply (msg : String) (ephemeral : Bool)
  | indexError
deriving DecidableEq, Repr

/-- Result of the field-scanning loop of `modal_response_edit`:
it either hits an embed with no fields, rejects a field name (the
`else` of the last `if` fires), or finishes with the collected old
message/date. -/
inductive ScanResult where
  | noFields
  | unknownField (name : String)
  | done (oldMessage : Option String) (oldDate : Option String)
deriving DecidableEq, Repr

/-- The inner `for field in embeds.fields` loop: `**Channel:**`
continues; `**Message:**` stores the old message and then falls through
to the `**Trigger:**` test, whose `else` rejects the field name;
`**Trigger:**` stores the old date. -/
def scanFields : List (String × String) → Option String → Option String →
    ScanResult
  | [], om, od => .done om od
  | (n, v) :: rest, om, od =>
    if n = "**Channel:**" then scanFields rest om od
    else
      let om2 := if n = "**Message:**" then some v else om
      if n = "**Trigger:**" then scanFields rest om2 (some v)
      else .unknownField n

/-- The outer `for embeds in message_embeds` loop; an embed whose
`fields` is `None` aborts with its own reply. -/
def scanEmbeds : List (Option (List (String × String))) → Option String →
    Option String → ScanResult
  | [], om, od => .done om od
  | none :: _, _, _ => .noFields
  | some fields :: rest, om, od =>
    match scanFields fields om od with
    | .done om2 od2 => scanEmbeds rest om2 od2
    | r => r

/-- The `new_message`/`new_date` extraction: a `DateTrigger` job reads
`response[0]` and `response[1]` (an `IndexError`, modelled as `none`,
when the tuple has fewer than two entries); other jobs read only
`response[0]`. -/
def extractResponse (t : Trigger) (response : List String) :
    Option (String × Option String) :=
  match response with
  | [] => none
  | r0 :: rest =>
    if t.isDate then
      match rest with
      | r1 :: _ => some (r0, some r1)
      | [] => none
    else some (r0, none)

/-- Python truthiness of the optional `new_date` string. -/
def dateTruthy : Option String → Bool
  | none => false
  | some s => s ≠ ""

/-- Model of `reschedule_job`: it replaces the job's trigger with a `DateTrigger` for
the new run date (used to render `calculate(new_job)`). -/
def Job.withDate (j : Job) (d : DT) : Job :=
  { j with trigger := .date d, nextRunTime := some d }

/-- The date-edit block of `modal_response_edit` (`if old_date is not
None and new_date:`): parse the new date, report parse failures, and
otherwise reschedule the job to the parsed timestamp formatted
`%Y-%m-%d %H:%M:%S`, extending the report.  `Sum.inr` is an early
`return`, `Sum.inl` carries the calls made and the report so far. -/
def modalDateStep (parse : String → ParsedTime) (calcJob : Job → String)
    (job : Job) (oldDate newDate : Option String) (msg : String) :
    (List ModalCall × String) ⊕ ModalOutcome :=
  if oldDate.isSome && dateTruthy newDate then
    if (parse (newDate.getD "")).err then
      Sum.inr (.reply (parse (newDate.getD "")).errMsg false)
    else
      match (parse (newDate.getD "")).parsedTime with
      | none =>
        Sum.inr (.reply ("Неудалось спарсить дату. (" ++ newDate.getD "" ++ ")")
          false)
      | some pd =>
        Sum.inl ([ModalCall.reschedule job.id (strftimeYmdHMS pd)],
          msg ++ "**Предыдущая дата**: " ++ oldDate.getD ""
            ++ "\n**Новая дата**: " ++ strftimeYmdHMS pd ++ " (в "
            ++ calcJob (job.withDate pd) ++ ")\n")
  else Sum.inl ([], msg)

/-- The message-edit block of `modal_response_edit` (`if old_message is
not None:`): replace the job's kwargs with the new message, keeping the
old `channel_id`/`author_id`, and extend the report. -/
def modalMessageStep (job : Job) (newMessage : String)
    (oldMessage : Option String) (calls : List ModalCall) (msg1 : String) :
    List ModalCall × ModalOutcome :=
  match oldMessage with
  | some om =>
    (calls ++ [ModalCall.modify job.id
       [("channel_id", kwGet job.kwargs "channel_id"),
        ("message", KwargValue.str newMessage),
        ("author_id", kwGet job.kwargs "author_id")]],
     .reply (msg1 ++ "**Старое сообщение**: " ++ om
       ++ "\n**Новое сообщение**: " ++ newMessage ++ "\n") false)
  | none => (calls, .reply msg1 false)

/-- Model of `modal_response_edit` from `main.py`: look the job up by the embed
title, collect old message/date from the embed fields, then run the
date-edit and message-edit blocks.  Returns the scheduler calls
performed and the reply. -/
def modalResponseEdit (parse : String → ParsedTime) (calcJob : Job → String)
    (state : List Job) (jobId : String)
    (embeds : List (Option (List (String × String))))
    (response : List String) : List ModalCall × ModalOutcome :=
  match getJob state jobId with
  | none => ([], .reply "Задача не найдена." true)
  | some job =>
    if response = [] then ([], .reply "Не найдено изменений." true)
    else
      match extractResponse job.trigger response with
      | none => ([], .indexError)
      | some (newMessage, newDate) =>
        match scanEmbeds embeds none none with
        | .noFields => ([], .reply "Не найдено полей в embed\x27е." true)
        | .unknownField n =>
          ([], .reply ("Неизвестное имя поля (" ++ n ++ ").") true)
        | .done oldMessage oldDate =>
          match modalDateStep parse calcJob job oldDate newDate
              ("Измененная задача " ++ jobId ++ ".\n") with
          | Sum.inr out => ([], out)
          | Sum.inl (calls, msg1) =>
            modalMessageStep job newMessage oldMessage calls msg1

/-- A scheduler mutation performed by the list-view button callback. -/
inductive SchedCall where
  | pause (id : String)
  | resume (id : String)
  | remove (id : String)
deriving DecidableEq, Repr

/-- The outward result of the button callback: a reply, the edit-modal
popup (title plus whether a date input is included), or Python's
implicit `None` when no button id matches. -/
inductive CallbackOutcome where
  | reply (msg : String) (ephemeral : Bool)
  | popup (title : String) (hasDateInput : Bool)
  | noAction
deriving DecidableEq, Repr

/-- Model of `callback` from `create_pages.py`: look the job up by the embed
title; a missing job replies "Job not found."; otherwise the edit button
opens the modal (with a date input only for `DateTrigger` jobs) and the
pause/unpause/remove buttons issue the matching scheduler call. -/
def callbackHandler (state : List Job) (jobId : String) (customId : String) :
    List SchedCall × CallbackOutcome :=
  match getJob state jobId with
  | none => ([], .reply "Job not found." true)
  | some job =>
    let oldMessage := kwStr job.kwargs "message"
    let channelId := kwInt job.kwargs "channel_id"
    let triggerTime : Option DT :=
      match job.trigger with
      | .date d => some d
      | _ => job.nextRunTime
    let jobType := if job.trigger.isDate then "normal" else "cron/interval"
    if customId = "edit" then
      ([], .popup ("Edit " ++ jobType ++ " reminder.") job.trigger.isDate)
    else if customId = "pause" then
      ([SchedCall.pause jobId], .reply ("Job " ++ jobId ++ " paused.") false)
    else if customId = "unpause" then
      ([SchedCall.resume jobId], .reply ("Job " ++ jobId ++ " unpaused.") false)
    else if customId = "remove" then
      ([SchedCall.remove jobId],
       .reply ("Job " ++ jobId ++ " removed.\n**Message:** "
         ++ oldMessage.getD "None" ++ "\n**Channel:** " ++ optIntStr channelId
         ++ "\n**Time:** " ++ optDTStr triggerTime) false)
    else ([], .noAction)

/-- Observable side effects of `send_webhook`: the local error log and
the attempted `DiscordWebhook(...).execute()` calls. -/
inductive SinkAction where
  | logError (msg : String)
  | webhookExecute (url : String) (content : String)
deriving DecidableEq, Repr

/-- The error `send_webhook` logs when no url is configured. -/
def noUrlMsg : String :=
  "ERROR: Tried to send a webhook but you have no webhook url configured."

/-- The default for `send_webhook`'s `message` parameter. -/
def defaultWebhookMessage : String := "discord-reminder-bot: Empty message."

/-- Model of `send_webhook` from `main.py`.  `execute` is the webhook transport
(`DiscordWebhook(url, content).execute()`), which may fail; the source
wraps no call in a try/except, so a transport failure is the function's
own outcome.  An empty `url` is logged — and then a webhook with the
error text is still built against `settings.webhook_url` and executed. -/
def sendWebhook (execute : String → String → Except String Unit)
    (settingsUrl : String) (url : String) (message : String) :
    List SinkAction × Except String Unit :=
  if url = "" then
    ([SinkAction.logError noUrlMsg,
      SinkAction.webhookExecute settingsUrl noUrlMsg],
     execute settingsUrl noUrlMsg)
  else
    ([SinkAction.webhookExecute url message], execute url message)

/-- APScheduler's event code for a missed job. -/
def EVENT_JOB_MISSED : Nat := 16384

/-- APScheduler's event code for a job that raised during execution. -/
def EVENT_JOB_ERROR : Nat := 8192

/-- The fields of `apscheduler.events.JobExecutionEvent` the listener
reads. -/
structure JobExecutionEvent where
  code : Nat
  jobId : String
  scheduledRunTime : DT
  exception : Option String := none

/-- Model of `my_listener` from `main.py`.  The missed branch calls
`send_webhook(message=msg)` by keyword, so the url keeps its default
(the settings url).  The exception branch passes its text
positionally — it lands in the `url` parameter and the `message`
parameter keeps its default.  `eventStr` renders `f"{event}"`.
A failure from the first `send_webhook` aborts the listener before the
second branch, as an uncaught exception would. -/
def myListener (execute : String → String → Except String Unit)
    (settingsUrl : String) (eventStr : JobExecutionEvent → String)
    (event : JobExecutionEvent) : List SinkAction × Except String Unit :=
  let exceptionBranch (acc : List SinkAction) :
      List SinkAction × Except String Unit :=
    match event.exception with
    | some _ =>
      let r := sendWebhook execute settingsUrl
        ("discord-reminder-bot failed to send message to Discord\n"
          ++ eventStr event)
        defaultWebhookMessage
      (acc ++ r.1, r.2)
    | none => (acc, Except.ok ())
  if event.code = EVENT_JOB_MISSED then
    let r := sendWebhook execute settingsUrl settingsUrl
      ("Job " ++ event.jobId ++ " was missed! Was scheduled at "
        ++ strftimeYmdHMS event.scheduledRunTime)
    match r.2 with
    | Except.error e => (r.1, Except.error e)
    | Except.ok _ => exceptionBranch r.1
  else exceptionBranch []

/-- A Discord user, as the add commands read it. -/
structure DUser where
  id : Int
  username : String
deriving DecidableEq, Repr

/-- The command-context data the add commands read. -/
structure Ctx where
  channelId : Int
  guildId : Int
  member : Option (Int × String) := none
deriving DecidableEq, Repr

/-- Which coroutine a created job will run. -/
inductive FuncKind where
  | sendToUser
  | sendToDiscord
deriving DecidableEq, Repr

/-- The trigger parameters an add command hands to `scheduler.add_job`. -/
inductive TriggerRequest where
  | date (runDate : String)
  | cron (args : CronArgs)
  | interval (args : IntervalArgs)
deriving DecidableEq, Repr

/-- One `scheduler.add_job` request: target coroutine, trigger
parameters, and the job kwargs. -/
structure AddJobRequest where
  func : FuncKind
  trigger : TriggerRequest
  kwargs : Kwargs
deriving DecidableEq, Repr

/-- Observable actions of an add command: a successful job creation, or
a `ctx.send`. -/
inductive CmdAction where
  | addJob (req : AddJobRequest)
  | send (msg : String) (ephemeral : Bool)
deriving DecidableEq, Repr

/-- Truthiness of the optional `both_dm_and_channel` flag. -/
def bothTruthy : Option Bool → Bool
  | some true => true
  | _ => false

/-- The `add_job` request for a direct-message reminder: kwargs
`{user_id, guild_id, message}`. -/
def dmRequest (trigger : TriggerRequest) (user : DUser) (ctx : Ctx)
    (messageReason : String) : AddJobRequest :=
  { func := .sendToUser, trigger := trigger,
    kwargs := [("user_id", KwargValue.int user.id),
               ("guild_id", KwargValue.int ctx.guildId),
               ("message", KwargValue.str messageReason)] }

/-- The `add_job` request for a channel reminder: kwargs
`{channel_id, message, author_id}`. -/
def channelRequest (trigger : TriggerRequest) (channelId : Int)
    (messageReason : String) (memberId : Int) : AddJobRequest :=
  { func := .sendToDiscord, trigger := trigger,
    kwargs := [("channel_id", KwargValue.int channelId),
               ("message", KwargValue.str messageReason),
               ("author_id", KwargValue.int memberId)] }

/-- The `try:`-block skeleton shared verbatim by `command_add`,
`remind_cron` and `remind_interval`: optionally create the DM job,
check the member, optionally create the channel job, send the final
message; a `ValueError` from `add_job` is caught and sent back as an
ephemeral reply.  The per-command message texts come in as functions. -/
def reminderFlow (addJob : AddJobRequest → Except String Job)
    (calcJob : Job → String) (ctx : Ctx)
    (trigger : TriggerRequest) (messageReason : String)
    (dmNote : String → String) (dmWhere : String → String → String)
    (channelWhere : Int → String → String → String)
    (memberErr : String) (finalMsg : String → String → String)
    (channelId : Int) (sendDmToUser : Option DUser)
    (bothDmAndChannel : Option Bool) : List CmdAction :=
  let fallbackWW :=
    "Ты бля ваще не должен видеть это сообщение, это баг. Если увидел, то Лучше звони Shifty. :-)"
  let dmStep : Except String (List CmdAction × String × Bool × String) :=
    match sendDmToUser with
    | none => Except.ok ([], "", true, fallbackWW)
    | some user =>
      match addJob (dmRequest trigger user ctx messageReason) with
      | Except.error e => Except.error e
      | Except.ok dmJob =>
        if bothTruthy bothDmAndChannel then
          Except.ok ([CmdAction.addJob (dmRequest trigger user ctx messageReason)],
            dmNote user.username, true, fallbackWW)
        else
          Except.ok ([CmdAction.addJob (dmRequest trigger user ctx messageReason)],
            dmNote user.username, false, dmWhere user.username (calcJob dmJob))
  match dmStep with
  | Except.error e => [CmdAction.send e true]
  | Except.ok (acc, dmMsg, shouldSend, ww) =>
    match ctx.member with
    | none => acc ++ [CmdAction.send memberErr true]
    | some (memberId, memberName) =>
      if shouldSend then
        match addJob (channelRequest trigger channelId messageReason memberId) with
        | Except.error e => acc ++ [CmdAction.send e true]
        | Except.ok job =>
          acc ++ [CmdAction.addJob
              (channelRequest trigger channelId messageReason memberId),
            CmdAction.send
              (finalMsg memberName (channelWhere channelId dmMsg (calcJob job)))
              false]
      else acc ++ [CmdAction.send (finalMsg memberName ww) false]

/-- Model of `/remind add` (`command_add` in `main.py`): parse the date, then run
the shared flow with a `DateTrigger` request built from the formatted
parse result. -/
def commandAdd (parse : String → ParsedTime)
    (addJob : AddJobRequest → Except String Job) (calcJob : Job → String)
    (ctx : Ctx) (messageReason messageDate : String)
    (differentChannel : Option GChannel) (sendDmToUser : Option DUser)
    (bothDmAndChannel : Option Bool) : List CmdAction :=
  let parsed := parse messageDate
  if parsed.err then [CmdAction.send parsed.errMsg false]
  else
    match parsed.parsedTime with
    | none =>
      [CmdAction.send ("Не удалось распарсить дату. (" ++ messageDate ++ ")") false]
    | some pd =>
      let runDate := strftimeYmdHMS pd
      let channelId := (differentChannel.map GChannel.id).getD ctx.channelId
      reminderFlow addJob calcJob ctx (.date runDate) messageReason
        (fun u => "and a DM to " ++ u ++ " ")
        (fun u c => "Я отправлю сообщение в личку " ++ u ++ ":\n**"
          ++ runDate ++ "** (в " ++ c ++ ")\n")
        (fun ch dm c => "Я напомню тебе в <#" ++ toString ch ++ "> " ++ dm
          ++ ":\n**" ++ runDate ++ "** (в " ++ c ++ ")\n")
        "Что-то пошло не так при получении участника, проверь \x27guild\x27 в дискорде."
        (fun name ww => "Привет " ++ name ++ ", " ++ ww ++ "С сообщением:\n**"
          ++ messageReason ++ "**.")
        channelId sendDmToUser bothDmAndChannel

/-- Model of `/remind cron` (`remind_cron` in `main.py`). -/
def remindCron (addJob : AddJobRequest → Except String Job)
    (calcJob : Job → String) (ctx : Ctx) (messageReason : String)
    (args : CronArgs) (differentChannel : Option GChannel)
    (sendDmToUser : Option DUser) (bothDmAndChannel : Option Bool) :
    List CmdAction :=
  let channelId := (differentChannel.map GChannel.id).getD ctx.channelId
  reminderFlow addJob calcJob ctx (.cron args) messageReason
    (fun u => " and a DM to " ++ u)
    (fun u c => "I will send a DM to " ++ u ++ " at:\nFirst run in " ++ c
      ++ " with the message:\n")
    (fun ch dm c => " Я отправлю сообщения в <#" ++ toString ch ++ ">" ++ dm
      ++ ".\nПервый запуск " ++ c ++ " с сообщением:\n")
    "Ошибка при получении участника из контекста сообщения. Ты уверен что ты на сервере?"
    (fun name ww => "Привет " ++ name ++ ", " ++ ww ++ " **"
      ++ messageReason ++ "**.")
    channelId sendDmToUser bothDmAndChannel

/-- Model of `/remind interval` (`remind_interval` in `main.py`). -/
def remindInterval (addJob : AddJobRequest → Except String Job)
    (calcJob : Job → String) (ctx : Ctx) (messageReason : String)
    (args : IntervalArgs) (differentChannel : Option GChannel)
    (sendDmToUser : Option DUser) (bothDmAndChannel : Option Bool) :
    List CmdAction :=
  let channelId := (differentChannel.map GChannel.id).getD ctx.channelId
  reminderFlow addJob calcJob ctx (.interval args) messageReason
    (fun u => "and a DM to " ++ u ++ " ")
    (fun u c => "Я отправлю сообщение в личку " ++ u ++ ":\nНачну в " ++ c
      ++ " с сообщением:\n")
    (fun ch dm c => " Я буду отправлять сообщения в <#" ++ toString ch ++ ">"
      ++ dm ++ ".\nПервая отправка " ++ c ++ " с сообщением:")
    "Не удалось получить участника который отправил команду."
    (fun name ww => "Привет " ++ name ++ "\n" ++ ww ++ "\n**"
      ++ messageReason ++ "**.")
    channelId sendDmToUser bothDmAndChannel

/-- Modelled from the spec: the interval Trigger Evaluator.  Its
implementation lives in the external APScheduler dependency, not in the
repository sources under `src/`; the rule is taken from spec §4.1: the
next fire time is the last fire time plus the fixed duration
(weeks/days/hours/minutes/seconds summed), or `start_bound`/"now" when
no fire has happened yet, with jitter added when configured and the
result clamped to the `[start_bound, end_bound]` window. -/
structure IntervalTrigger where
  weeks : Int := 0
  days : Int := 0
  hours : Int := 0
  minutes : Int := 0
  seconds : Int := 0
  startBound : Option Int := none
  endBound : Option Int := none
  jitterSeconds : Option Int := none
deriving DecidableEq, Repr

/-- The trigger's total duration D, in seconds. -/
def IntervalTrigger.duration (t : IntervalTrigger) : Int :=
  t.weeks * 604800 + t.days * 86400 + t.hours * 3600 + t.minutes * 60
    + t.seconds

/-- Modelled from the spec: `next_fire` for an interval trigger
(spec §4.1).  `jitterSample` is the sampled random offset used when
jitter is configured. -/
def intervalNextFire (t : IntervalTrigger) (jitterSample : Int) (now : Int)
    (lastFire : Option Int) : Option Int :=
  let base :=
    match lastFire with
    | some l => l + t.duration
    | none =>
      match t.startBound with
      | some s => s
      | none => now
  let jittered :=
    match t.jitterSeconds with
    | some _ => base + jitterSample
    | none => base
  let clamped :=
    match t.startBound with
    | some s => max jittered s
    | none => jittered
  match t.endBound with
  | some e => if clamped > e then none else some clamped
  | none => some clamped

/-- Iterate `next_fire` from a fire time, feeding each result back in as
the prior fire time (no jitter sampled). -/
def intervalIterate (t : IntervalTrigger) (start : Int) : Nat → Option Int
  | 0 => some start
  | n + 1 =>
    (intervalIterate t start n).bind
      (fun p => intervalNextFire t 0 0 (some p))

/-! ### Helper lemmas -/

theorem channelMatches_id_eq {job : Job} {c1 c2 : GChannel}
    (h1 : channelMatches job c1 = true) (h2 : channelMatches job c2 = true) :
    c1.id = c2.id := by
  unfold channelMatches at h1 h2
  cases hk : kwInt job.kwargs "channel_id" with
  | none => rw [hk] at h1; cases h1
  | some v =>
    rw [hk] at h1 h2
    simp only [decide_eq_true_eq] at h1 h2
    rw [h1, h2]

theorem pages_for_job_nil {calcJob : Job → String} {job : Job}
    {chs : List GChannel}
    (h : ∀ ch ∈ chs, channelMatches job ch = false) :
    chs.filterMap (fun ch =>
      if channelMatches job ch then some (mkPage calcJob job ch) else none)
      = [] := by
  induction chs with
  | nil => rfl
  | cons c cs ih =>
    rw [List.filterMap_cons]
    rw [h c (by simp)]
    exact ih (fun ch hch => h ch (by simp [hch]))

theorem pages_for_job_ids (calcJob : Job → String) (job : Job)
    (chs : List GChannel) (hnd : (chs.map GChannel.id).Nodup) :
    ((chs.filterMap (fun ch =>
        if channelMatches job ch then some (mkPage calcJob job ch) else none)).map
      Page.jobId)
      = if chs.any (channelMatches job) then [job.id] else [] := by
  induction chs with
  | nil => rfl
  | cons c cs ih =>
    have hnd2 : c.id ∉ cs.map GChannel.id ∧ (cs.map GChannel.id).Nodup :=
      List.nodup_cons.mp (by simpa using hnd)
    rw [List.filterMap_cons]
    cases hm : channelMatches job c with
    | true =>
      have hnone : ∀ ch ∈ cs, channelMatches job ch = false := by
        intro ch hch
        cases hx : channelMatches job ch with
        | false => rfl
        | true =>
          exact absurd
            (by rw [← channelMatches_id_eq hx hm]; exact List.mem_map_of_mem _ hch)
            hnd2.1
      rw [pages_for_job_nil hnone]
      simp [hm, mkPage]
    | false =>
      simp [hm, ih hnd2.2]

/-- C10: the list view shows a job exactly when some channel of the
invoking guild matches the job's `channel_id` kwarg; direct-message
reminders (no `channel_id`) and reminders for other guilds' channels
never produce a page. -/
theorem createPages_lists_exactly_guild_channel_jobs
    (calcJob : Job → String) (guild : Guild) (jobs : List Job)
    (hnd : (guild.channels.map GChannel.id).Nodup) :
    (createPages calcJob guild jobs).map Page.jobId
      = (jobs.filter (fun j => jobListed guild j)).map Job.id := by
  induction jobs with
  | nil => rfl
  | cons j js ih =>
    unfold createPages at ih ⊢
    rw [List.flatMap_cons, List.map_append, pages_for_job_ids _ _ _ hnd, ih,
      List.filter_cons]
    unfold jobListed
    cases h : guild.channels.any (channelMatches j) with
    | true => simp
    | false => simp

/-- C10 witness: a concrete guild with two channels and three jobs — a
channel reminder in the guild, a DM reminder without `channel_id`, and a
reminder for a foreign channel — lists exactly the first job. -/
theorem createPages_witness :
    ((([(⟨5, ""⟩ : GChannel), ⟨6, ""⟩] : List GChannel).map GChannel.id).Nodup)
      ∧ (createPages (fun _ => "soon") ⟨[⟨5, ""⟩, ⟨6, ""⟩]⟩
          [{ id := "a", trigger := .date ⟨2030, 1, 1, 0, 0, 0⟩,
             kwargs := [("channel_id", .int 6), ("message", .str "hi"),
                        ("author_id", .int 1)] },
           { id := "b", trigger := .date ⟨2030, 1, 1, 0, 0, 0⟩,
             kwargs := [("user_id", .int 9), ("guild_id", .int 2),
                        ("message", .str "dm")] },
           { id := "c", trigger := .date ⟨2030, 1, 1, 0, 0, 0⟩,
             kwargs := [("channel_id", .int 77), ("message", .str "other"),
                        ("author_id", .int 1)] }]).map Page.jobId = ["a"] :=
  ⟨by decide, by
    rw [createPages_lists_exactly_guild_channel_jobs _ _ _ (by decide)]
    decide⟩

/-- C8: an At (`DateTrigger`) job is displayed with the run date from
its trigger and gets no pause/unpause button; a cron/interval job shows
`_Paused_` exactly when its `next_run_time` is `None` and always gets a
pause or unpause button. -/
theorem at_jobs_never_paused_in_list
    (calcJob : Job → String) (job : Job) (ch : GChannel) :
    (∀ d, job.trigger = Trigger.date d →
      (mkPage calcJob job ch).triggerField
          = strftimeYmdHM d ++ " (in " ++ calcJob job ++ ")"
        ∧ (mkPage calcJob job ch).components = ["edit", "remove"])
    ∧ (job.trigger.isDate = false →
        (job.nextRunTime = none →
          (mkPage calcJob job ch).triggerField = "_Paused_"
            ∧ (mkPage calcJob job ch).components = ["edit", "unpause", "remove"])
        ∧ ∀ t, job.nextRunTime = some t →
            (mkPage calcJob job ch).triggerField
                = strftimeYmdHM t ++ " (in " ++ calcJob job ++ ")"
              ∧ (mkPage calcJob job ch).components
                = ["edit", "pause", "remove"]) := by
  refine ⟨fun d hd => ?_, fun hnd => ⟨fun hn => ?_, fun t ht => ?_⟩⟩
  · constructor <;>
      simp [mkPage, displayTriggerTime, hd, Trigger.isDate]
  · cases htr : job.trigger with
    | date d => rw [htr] at hnd; cases hnd
    | cron a =>
      constructor <;> simp [mkPage, displayTriggerTime, htr, hn,
        Trigger.isDate, List.insertIdx]
    | interval a =>
      constructor <;> simp [mkPage, displayTriggerTime, htr, hn,
        Trigger.isDate, List.insertIdx]
  · cases htr : job.trigger with
    | date d => rw [htr] at hnd; cases hnd
    | cron a =>
      constructor <;> simp [mkPage, displayTriggerTime, htr, ht,
        Trigger.isDate, List.insertIdx]
    | interval a =>
      constructor <;> simp [mkPage, displayTriggerTime, htr, ht,
        Trigger.isDate, List.insertIdx]

/-- C8 witness: a paused interval job shows `_Paused_` with an unpause
button, while an At job whose `next_run_time` was cleared still shows
its run date with no pause/unpause button. -/
theorem at_jobs_never_paused_witness :
    ((mkPage (fun _ => "2 days")
        { id := "iv", trigger := .interval {}, kwargs := [],
          nextRunTime := none } ⟨1, "general"⟩).triggerField = "_Paused_"
      ∧ (mkPage (fun _ => "2 days")
          { id := "iv", trigger := .interval {}, kwargs := [],
            nextRunTime := none } ⟨1, "general"⟩).components
        = ["edit", "unpause", "remove"])
    ∧ ((mkPage (fun _ => "2 days")
          { id := "at", trigger := .date ⟨2030, 1, 2, 9, 30, 0⟩, kwargs := [],
            nextRunTime := none } ⟨1, "general"⟩).triggerField
          = "2030-01-02 09:30 (in 2 days)"
        ∧ (mkPage (fun _ => "2 days")
            { id := "at", trigger := .date ⟨2030, 1, 2, 9, 30, 0⟩, kwargs := [],
              nextRunTime := none } ⟨1, "general"⟩).components
          = ["edit", "remove"]) := by
  have h1 := (at_jobs_never_paused_in_list (fun _ => "2 days")
    { id := "iv", trigger := .interval {}, kwargs := [],
      nextRunTime := none } ⟨1, "general"⟩).2 rfl
  have h2 := (at_jobs_never_paused_in_list (fun _ => "2 days")
    { id := "at", trigger := .date ⟨2030, 1, 2, 9, 30, 0⟩, kwargs := [],
      nextRunTime := none } ⟨1, "general"⟩).1 ⟨2030, 1, 2, 9, 30, 0⟩ rfl
  refine ⟨h1.1 rfl, ⟨?_, h2.2⟩⟩
  rw [h2.1]
  decide

/-- The field scan never changes the collected old message: the only
assignment to it (on a `**Message:**` field) falls into the `else` of
the `**Trigger:**` test and aborts the scan. -/
theorem scanFields_preserves_oldMessage (fields : List (String × String)) :
    ∀ om od om2 od2, scanFields fields om od = ScanResult.done om2 od2 →
      om2 = om := by
  induction fields with
  | nil =>
    intro om od om2 od2 h
    simp only [scanFields, ScanResult.done.injEq] at h
    exact h.1.symm
  | cons f rest ih =>
    intro om od om2 od2 h
    obtain ⟨n, v⟩ := f
    simp only [scanFields] at h
    by_cases hc : n = "**Channel:**"
    · rw [if_pos hc] at h
      exact ih om od om2 od2 h
    · rw [if_neg hc] at h
      by_cases ht : n = "**Trigger:**"
      · rw [if_pos ht] at h
        have hmsg : (if n = "**Message:**" then some v else om) = om := by
          subst ht; simp
        rw [hmsg] at h
        exact ih om (some v) om2 od2 h
      · rw [if_neg ht] at h
        cases h

/-- Lifting of `scanFields_preserves_oldMessage` through the outer embed
loop: a completed scan returns the old message it started with, so the
initial `old_message = None` survives to the modify branch. -/
theorem scanEmbeds_preserves_oldMessage
    (embeds : List (Option (List (String × String)))) :
    ∀ om od om2 od2, scanEmbeds embeds om od = ScanResult.done om2 od2 →
      om2 = om := by
  induction embeds with
  | nil =>
    intro om od om2 od2 h
    simp only [scanEmbeds, ScanResult.done.injEq] at h
    exact h.1.symm
  | cons e rest ih =>
    intro om od om2 od2 h
    cases e with
    | none => simp only [scanEmbeds] at h; cases h
    | some fields =>
      simp only [scanEmbeds] at h
      cases hs : scanFields fields om od with
      | noFields => rw [hs] at h; cases h
      | unknownField n => rw [hs] at h; cases h
      | done om3 od3 =>
        rw [hs] at h
        rw [ih om3 od3 om2 od2 h,
          scanFields_preserves_oldMessage fields om od om3 od3 hs]

/-- Is a modal scheduler call a `modify_job`? -/
def isModifyCall : ModalCall → Bool
  | .modify _ _ => true
  | _ => false

/-- The embed fields the list view renders for a reminder: Channel,
Message, Trigger, in that order. -/
def listViewFields : List (String × String) :=
  [("**Channel:**", "#general"), ("**Message:**", "old text"),
   ("**Trigger:**", "2032-09-18 00:07")]

/-- A concrete one-shot reminder job as the add command stores it. -/
def jobAt1 : Job :=
  { id := "job1", trigger := .date ⟨2032, 9, 18, 0, 7, 0⟩,
    kwargs := [("channel_id", .int 42), ("message", .str "old text"),
               ("author_id", .int 7)],
    nextRunTime := some ⟨2032, 9, 18, 0, 7, 0⟩ }

/-- A parser stub that accepts every string as 2032-09-18 00:07:13. -/
def parseOk1 : String → ParsedTime :=
  fun _ => { parsedTime := some ⟨2032, 9, 18, 0, 7, 13⟩ }

/-- The date-edit block issues at most a reschedule call, never a
`modify_job`. -/
theorem modalDateStep_no_modify (parse : String → ParsedTime)
    (calcJob : Job → String) (job : Job) (oldDate newDate : Option String)
    (msg : String) (calls : List ModalCall) (msg1 : String)
    (h : modalDateStep parse calcJob job oldDate newDate msg
      = Sum.inl (calls, msg1)) :
    calls.any isModifyCall = false := by
  unfold modalDateStep at h
  by_cases hd : (oldDate.isSome && dateTruthy newDate) = true
  · rw [if_pos hd] at h
    by_cases hp : (parse (newDate.getD "")).err = true
    · rw [if_pos hp] at h
      cases h
    · rw [if_neg hp] at h
      cases hpt : (parse (newDate.getD "")).parsedTime with
      | none => rw [hpt] at h; cases h
      | some pd =>
        rw [hpt] at h
        cases h
        rfl
  · rw [if_neg hd] at h
    cases h
    rfl

/-- C1: the edit modal never issues a `modify_job` call — for any state,
embed and response — and on the exact embed the list view produces
(Channel/Message/Trigger fields) it aborts with the unknown-field reply
at the Message field, because the `else` of the `**Trigger:**` test
fires, leaving the job's message kwarg unchanged and unreported. -/
theorem modal_edit_never_replaces_message :
    (∀ (parse : String → ParsedTime) (calcJob : Job → String)
      (state : List Job) (jobId : String)
      (embeds : List (Option (List (String × String))))
      (response : List String),
      ((modalResponseEdit parse calcJob state jobId embeds response).1.any
        isModifyCall) = false)
    ∧ modalResponseEdit parseOk1 (fun _ => "in 10 years") [jobAt1] "job1"
        [some listViewFields] ["new text", "2032-09-18 00:07:13"]
      = ([], ModalOutcome.reply "Неизвестное имя поля (**Message:**)." true) := by
  constructor
  · intro parse calcJob state jobId embeds response
    unfold modalResponseEdit
    cases hj : getJob state jobId with
    | none => simp only [hj]; rfl
    | some job =>
      simp only [hj]
      by_cases hr : response = []
      · rw [if_pos hr]; rfl
      · rw [if_neg hr]
        cases he : extractResponse job.trigger response with
        | none => simp only [he]; rfl
        | some p =>
          obtain ⟨newMessage, newDate⟩ := p
          simp only [he]
          cases hs : scanEmbeds embeds none none with
          | noFields => simp only [hs]; rfl
          | unknownField n => simp only [hs]; rfl
          | done om od =>
            have hom : om = none :=
              scanEmbeds_preserves_oldMessage embeds none none om od hs
            subst hom
            simp only [hs]
            cases hds : modalDateStep parse calcJob job od newDate
                ("Измененная задача " ++ jobId ++ ".\n") with
            | inr out => simp only [hds]; rfl
            | inl p2 =>
              obtain ⟨calls, msg1⟩ := p2
              simp only [hds, modalMessageStep]
              exact modalDateStep_no_modify parse calcJob job od newDate
                ("Измененная задача " ++ jobId ++ ".\n") calls msg1 hds
  · rfl

/-- C4: a job id that names no stored job makes both the edit-modal
handler and the list-view button callback answer with their
job-not-found reply, performing no scheduler call. -/
theorem missing_job_errors_without_mutation
    (parse : String → ParsedTime) (calcJob : Job → String)
    (state : List Job) (jobId : String)
    (embeds : List (Option (List (String × String))))
    (response : List String) (customId : String)
    (h : getJob state jobId = none) :
    modalResponseEdit parse calcJob state jobId embeds response
        = ([], ModalOutcome.reply "Задача не найдена." true)
      ∧ callbackHandler state jobId customId
        = ([], CallbackOutcome.reply "Job not found." true) := by
  constructor
  · unfold modalResponseEdit
    rw [h]
  · unfold callbackHandler
    rw [h]

/-- C4 witness: an empty store and an unknown id. -/
theorem missing_job_errors_witness :
    modalResponseEdit parseOk1 (fun _ => "") [] "nope" [] []
        = ([], ModalOutcome.reply "Задача не найдена." true)
      ∧ callbackHandler [] "nope" "remove"
        = ([], CallbackOutcome.reply "Job not found." true) :=
  missing_job_errors_without_mutation parseOk1 (fun _ => "") [] "nope" [] []
    "remove" rfl

/-- A concrete paused cron reminder job. -/
def jobCron1 : Job :=
  { id := "cron1", trigger := .cron { minute := some 30 },
    kwargs := [("channel_id", .int 42), ("message", .str "cron text"),
               ("author_id", .int 7)],
    nextRunTime := none }

/-- A second concrete one-shot job, for the C5 evaluation. -/
def jobAt2 : Job :=
  { id := "date2", trigger := .date ⟨2030, 5, 5, 10, 0, 0⟩,
    kwargs := [("channel_id", .int 43), ("message", .str "at text"),
               ("author_id", .int 8)],
    nextRunTime := some ⟨2030, 5, 5, 10, 0, 0⟩ }

/-- C5: the modal applies a new timestamp only through the At path — for
a cron/interval job no date is read (`new_date` stays `None`), so no
scheduler call at all is made, and its edit popup carries no date
input; yet for an At job with a parseable new date and the embed fields
the list view produces, the handler aborts at the Message field before
`reschedule_job`, so the documented reschedule never happens. -/
theorem modal_reschedules_only_at_jobs
    (parse : String → ParsedTime) (calcJob : Job → String)
    (state : List Job) (jobId : String) (job : Job)
    (embeds : List (Option (List (String × String))))
    (response : List String)
    (h : getJob state jobId = some job)
    (hnd : job.trigger.isDate = false) :
    (modalResponseEdit parse calcJob state jobId embeds response).1 = []
      ∧ callbackHandler state jobId "edit"
        = ([], CallbackOutcome.popup "Edit cron/interval reminder." false)
      ∧ modalResponseEdit parseOk1 (fun _ => "in 5 years") [jobAt2] "date2"
          [some listViewFields] ["msg", "2030-05-05 10:00:00"]
        = ([], ModalOutcome.reply "Неизвестное имя поля (**Message:**)." true) := by
  refine ⟨?_, ?_, rfl⟩
  · unfold modalResponseEdit
    simp only [h]
    by_cases hr : response = []
    · rw [if_pos hr]
    · rw [if_neg hr]
      cases he : extractResponse job.trigger response with
      | none => simp only [he]
      | some p =>
        obtain ⟨newMessage, newDate⟩ := p
        have hnone : newDate = none := by
          unfold extractResponse at he
          cases response with
          | nil => cases he
          | cons r0 rest =>
            rw [hnd] at he
            simp only [Bool.false_eq_true, if_false, Option.some.injEq] at he
            exact congrArg Prod.snd he.symm
        subst hnone
        simp only [he]
        cases hs : scanEmbeds embeds none none with
        | noFields => simp only [hs]
        | unknownField n => simp only [hs]
        | done om od =>
          have hom : om = none :=
            scanEmbeds_preserves_oldMessage embeds none none om od hs
          subst hom
          simp only [hs]
          have hds : modalDateStep parse calcJob job od none
              ("Измененная задача " ++ jobId ++ ".\n")
              = Sum.inl ([], "Измененная задача " ++ jobId ++ ".\n") := by
            unfold modalDateStep
            simp [dateTruthy]
          simp only [hds, modalMessageStep]
  · unfold callbackHandler
    simp only [h]
    simp [hnd]

/-- C5 witness: a stored cron job; its modal submission makes no
scheduler call. -/
theorem modal_reschedules_only_at_jobs_witness :
    (modalResponseEdit parseOk1 (fun _ => "") [jobCron1] "cron1"
        [some listViewFields] ["changed"]).1 = [] :=
  (modal_reschedules_only_at_jobs parseOk1 (fun _ => "") [jobCron1] "cron1"
    jobCron1 [some listViewFields] ["changed"] rfl rfl).1

/-- C2 counterexample: with no webhook url configured and a transport
that rejects the empty url (as an HTTP client does), `send_webhook`
ends in an error — the exception reaches the caller — and even under a
succeeding transport the missing-url branch does not merely log: it
also attempts a webhook delivery. -/
theorem sendWebhook_missing_url_can_raise :
    (sendWebhook
        (fun u _ => if u = "" then Except.error "MissingSchema: Invalid URL"
          else Except.ok ())
        "" "" "hello").2 = Except.error "MissingSchema: Invalid URL"
      ∧ (sendWebhook (fun _ _ => Except.ok ()) "" "" "hello").1
        = [SinkAction.logError noUrlMsg,
           SinkAction.webhookExecute "" noUrlMsg] := by
  constructor <;> rfl

/-- C2 (amended): `send_webhook` contains no exception handling — it
returns normally exactly when the single webhook delivery it attempts
succeeds; a missing url is logged and then the error text is still
delivered to the settings url, while a nonempty url delivers the given
message to it. -/
theorem sendWebhook_outcome_follows_transport
    (execute : String → String → Except String Unit)
    (settingsUrl url message : String) :
    ((sendWebhook execute settingsUrl url message).2 = Except.ok ()
      ↔ execute (if url = "" then settingsUrl else url)
          (if url = "" then noUrlMsg else message) = Except.ok ())
    ∧ (url = "" →
        (sendWebhook execute settingsUrl url message).1
          = [SinkAction.logError noUrlMsg,
             SinkAction.webhookExecute settingsUrl noUrlMsg])
    ∧ (url ≠ "" →
        (sendWebhook execute settingsUrl url message).1
          = [SinkAction.webhookExecute url message]) := by
  unfold sendWebhook
  by_cases h : url = "" <;> simp [h]

/-- C2 witness for the amended claim, at the missing-url input. -/
theorem sendWebhook_outcome_witness :
    (sendWebhook (fun _ _ => Except.ok ()) "https://hook.test/1" "" "m").1
      = [SinkAction.logError noUrlMsg,
         SinkAction.webhookExecute "https://hook.test/1" noUrlMsg] :=
  (sendWebhook_outcome_follows_transport (fun _ _ => Except.ok ())
    "https://hook.test/1" "" "m").2.1 rfl

/-- A concrete execution-failure scheduler event. -/
def errorEvent1 : JobExecutionEvent :=
  { code := EVENT_JOB_ERROR, jobId := "job42",
    scheduledRunTime := ⟨2030, 1, 1, 0, 0, 0⟩, exception := some "boom" }

/-- A concrete missed-run scheduler event. -/
def missedEvent1 : JobExecutionEvent :=
  { code := EVENT_JOB_MISSED, jobId := "job7",
    scheduledRunTime := ⟨2030, 1, 1, 0, 0, 0⟩, exception := none }

/-- C3: on a missed event the listener sends exactly one webhook whose
content names the job id and the `%Y-%m-%d %H:%M:%S`-formatted scheduled
time; but on an event carrying an exception the failure text is passed
positionally into `send_webhook`'s `url` parameter, so the webhook that
goes out carries the default "Empty message." content addressed to the
failure text as its url — no webhook message reporting the failure is
sent. -/
theorem listener_error_event_misroutes_failure_report :
    myListener (fun _ _ => Except.ok ()) "https://discord.test/hook"
        (fun e => "<JobExecutionEvent job_id=" ++ e.jobId ++ ">") errorEvent1
      = ([SinkAction.webhookExecute
            ("discord-reminder-bot failed to send message to Discord\n<JobExecutionEvent job_id=job42>")
            defaultWebhookMessage],
         Except.ok ())
      ∧ myListener (fun _ _ => Except.ok ()) "https://discord.test/hook"
          (fun e => "<JobExecutionEvent job_id=" ++ e.jobId ++ ">") missedEvent1
        = ([SinkAction.webhookExecute "https://discord.test/hook"
              "Job job7 was missed! Was scheduled at 2030-01-01 00:00:00"],
           Except.ok ()) := by
  constructor <;> rfl

/-- C9 (spec-modelled): for an interval trigger with no start/end bounds
and no jitter, each application of `next_fire` to the prior fire time
advances it by exactly the trigger's total duration D, and iterating n
times from any start advances by n·D. -/
theorem interval_advances_by_duration (t : IntervalTrigger)
    (hs : t.startBound = none) (he : t.endBound = none)
    (hj : t.jitterSeconds = none) :
    (∀ jitterSample now prev,
        intervalNextFire t jitterSample now (some prev)
          = some (prev + t.duration))
    ∧ ∀ (start : Int) (n : Nat),
        intervalIterate t start n = some (start + n * t.duration) := by
  have hstep : ∀ jitterSample now prev,
      intervalNextFire t jitterSample now (some prev)
        = some (prev + t.duration) := by
    intro jitterSample now prev
    unfold intervalNextFire
    rw [hs, he, hj]
  refine ⟨hstep, fun start n => ?_⟩
  induction n with
  | zero => simp [intervalIterate]
  | succ k ih =>
    rw [intervalIterate, ih]
    simp only [Option.some_bind]
    rw [hstep]
    congr 1
    push_cast
    ring

/-- C9 witness: a five-minute interval trigger fired three times from
t = 1000. -/
theorem interval_advances_witness :
    intervalIterate { minutes := 5 } 1000 3
      = some (1000 + (3 : Nat) * IntervalTrigger.duration { minutes := 5 }) :=
  (interval_advances_by_duration { minutes := 5 } rfl rfl rfl).2 1000 3

/-- The two payload shapes the spec allows: channel delivery
`{channel_id, message, author_id}` or direct-message delivery
`{user_id, guild_id, message}`. -/
def payloadShape : Kwargs → Bool
  | [("channel_id", KwargValue.int _), ("message", KwargValue.str _),
     ("author_id", KwargValue.int _)] => true
  | [("user_id", KwargValue.int _), ("guild_id", KwargValue.int _),
     ("message", KwargValue.str _)] => true
  | _ => false

/-- Every `add_job` request issued by the shared command flow is either
the DM request or the channel request. -/
theorem reminderFlow_requests (addJob : AddJobRequest → Except String Job)
    (calcJob : Job → String) (ctx : Ctx) (trigger : TriggerRequest)
    (messageReason : String) (dmNote : String → String)
    (dmWhere : String → String → String)
    (channelWhere : Int → String → String → String)
    (memberErr : String) (finalMsg : String → String → String)
    (channelId : Int) (sendDmToUser : Option DUser)
    (bothDmAndChannel : Option Bool) (req : AddJobRequest)
    (h : CmdAction.addJob req ∈ reminderFlow addJob calcJob ctx trigger
      messageReason dmNote dmWhere channelWhere memberErr finalMsg channelId
      sendDmToUser bothDmAndChannel) :
    (∃ user, sendDmToUser = some user
        ∧ req = dmRequest trigger user ctx messageReason)
      ∨ ∃ memberId memberName, ctx.member = some (memberId, memberName)
          ∧ req = channelRequest trigger channelId messageReason memberId := by
  unfold reminderFlow at h
  cases hdm : sendDmToUser with
  | none =>
    simp only [hdm] at h
    cases hm : ctx.member with
    | none => simp only [hm, List.nil_append] at h; simp at h
    | some m =>
      obtain ⟨memberId, memberName⟩ := m
      simp only [hm, if_true] at h
      cases hcj : addJob (channelRequest trigger channelId messageReason memberId) with
      | error e => simp only [hcj, List.nil_append] at h; simp at h
      | ok job =>
        simp only [hcj, List.nil_append] at h
        simp only [List.mem_cons, List.not_mem_nil, or_false] at h
        rcases h with h | h
        · exact Or.inr ⟨memberId, memberName, rfl, (CmdAction.addJob.injEq _ _).mp h⟩
        · cases h
  | some user =>
    simp only [hdm] at h
    cases hdj : addJob (dmRequest trigger user ctx messageReason) with
    | error e => simp only [hdj] at h; simp at h
    | ok dmJob =>
      simp only [hdj] at h
      cases hb : bothTruthy bothDmAndChannel with
      | true =>
        simp only [hb, if_true] at h
        cases hm : ctx.member with
        | none =>
          simp only [hm] at h
          simp only [List.mem_append, List.mem_cons, List.not_mem_nil,
            or_false] at h
          rcases h with h | h
          · exact Or.inl ⟨user, rfl, (CmdAction.addJob.injEq _ _).mp h⟩
          · cases h
        | some m =>
          obtain ⟨memberId, memberName⟩ := m
          simp only [hm, if_true] at h
          cases hcj : addJob (channelRequest trigger channelId messageReason memberId) with
          | error e =>
            simp only [hcj] at h
            simp only [List.mem_append, List.mem_cons, List.not_mem_nil,
              or_false] at h
            rcases h with h | h
            · exact Or.inl ⟨user, rfl, (CmdAction.addJob.injEq _ _).mp h⟩
            · cases h
          | ok job =>
            simp only [hcj] at h
            simp only [List.mem_append, List.mem_cons, List.not_mem_nil,
              or_false] at h
            rcases h with h | h | h
            · exact Or.inl ⟨user, rfl, (CmdAction.addJob.injEq _ _).mp h⟩
            · exact Or.inr ⟨memberId, memberName, rfl, (CmdAction.addJob.injEq _ _).mp h⟩
            · cases h
      | false =>
        simp only [hb, Bool.false_eq_true, if_false] at h
        cases hm : ctx.member with
        | none =>
          simp only [hm] at h
          simp only [List.mem_append, List.mem_cons, List.not_mem_nil,
            or_false] at h
          rcases h with h | h
          · exact Or.inl ⟨user, rfl, (CmdAction.addJob.injEq _ _).mp h⟩
          · cases h
        | some m =>
          obtain ⟨memberId, memberName⟩ := m
          simp only [hm, Bool.false_eq_true, if_false] at h
          simp only [List.mem_append, List.mem_cons, List.not_mem_nil,
            or_false] at h
          rcases h with h | h
          · exact Or.inl ⟨user, rfl, (CmdAction.addJob.injEq _ _).mp h⟩
          · cases h

/-- Both request shapes satisfy the payload invariant and carry the
message. -/
theorem request_shapes_valid (trigger : TriggerRequest) (user : DUser)
    (ctx : Ctx) (messageReason : String) (channelId memberId : Int) :
    (payloadShape (dmRequest trigger user ctx messageReason).kwargs = true
      ∧ (dmRequest trigger user ctx messageReason).kwargs.lookup "message"
        = some (KwargValue.str messageReason))
    ∧ (payloadShape (channelRequest trigger channelId messageReason memberId).kwargs = true
      ∧ (channelRequest trigger channelId messageReason memberId).kwargs.lookup "message"
        = some (KwargValue.str messageReason)) := by
  refine ⟨⟨rfl, ?_⟩, ⟨rfl, ?_⟩⟩ <;> simp [dmRequest, channelRequest, List.lookup]

/-- C6: every job created by `/remind add`, `/remind cron` or
`/remind interval` carries kwargs of exactly one of the two shapes
`{channel_id, message, author_id}` or `{user_id, guild_id, message}`,
and in particular always contains the `message` entry. -/
theorem created_jobs_payload_shape
    (parse : String → ParsedTime) (addJob : AddJobRequest → Except String Job)
    (calcJob : Job → String) (ctx : Ctx)
    (messageReason messageDate : String) (cronArgs : CronArgs)
    (intervalArgs : IntervalArgs) (differentChannel : Option GChannel)
    (sendDmToUser : Option DUser) (bothDmAndChannel : Option Bool)
    (req : AddJobRequest) :
    (CmdAction.addJob req ∈ commandAdd parse addJob calcJob ctx messageReason
        messageDate differentChannel sendDmToUser bothDmAndChannel →
      payloadShape req.kwargs = true
        ∧ req.kwargs.lookup "message" = some (KwargValue.str messageReason))
    ∧ (CmdAction.addJob req ∈ remindCron addJob calcJob ctx messageReason
        cronArgs differentChannel sendDmToUser bothDmAndChannel →
      payloadShape req.kwargs = true
        ∧ req.kwargs.lookup "message" = some (KwargValue.str messageReason))
    ∧ (CmdAction.addJob req ∈ remindInterval addJob calcJob ctx messageReason
        intervalArgs differentChannel sendDmToUser bothDmAndChannel →
      payloadShape req.kwargs = true
        ∧ req.kwargs.lookup "message" = some (KwargValue.str messageReason)) := by
  have fromFlow : ∀ trigger dmNote dmWhere channelWhere memberErr finalMsg
      channelId,
      CmdAction.addJob req ∈ reminderFlow addJob calcJob ctx trigger
        messageReason dmNote dmWhere channelWhere memberErr finalMsg channelId
        sendDmToUser bothDmAndChannel →
      payloadShape req.kwargs = true
        ∧ req.kwargs.lookup "message" = some (KwargValue.str messageReason) := by
    intro trigger dmNote dmWhere channelWhere memberErr finalMsg channelId h
    rcases reminderFlow_requests addJob calcJob ctx trigger messageReason
      dmNote dmWhere channelWhere memberErr finalMsg channelId sendDmToUser
      bothDmAndChannel req h with ⟨user, _, hreq⟩ | ⟨mid, _, _, hreq⟩
    · rw [hreq]
      exact (request_shapes_valid trigger user ctx messageReason 0 0).1
    · rw [hreq]
      exact (request_shapes_valid trigger ⟨0, ""⟩ ctx messageReason channelId
        mid).2
  refine ⟨?_, ?_, ?_⟩
  · intro h
    unfold commandAdd at h
    by_cases herr : (parse messageDate).err = true
    · rw [if_pos herr] at h
      simp at h
    · rw [if_neg herr] at h
      cases hpt : (parse messageDate).parsedTime with
      | none => rw [hpt] at h; simp at h
      | some pd =>
        rw [hpt] at h
        exact fromFlow _ _ _ _ _ _ _ h
  · intro h
    unfold remindCron at h
    exact fromFlow _ _ _ _ _ _ _ h
  · intro h
    unfold remindInterval at h
    exact fromFlow _ _ _ _ _ _ _ h

/-- C6 witness: a concrete interval command run that creates a channel
job. -/
theorem created_jobs_payload_witness :
    payloadShape (channelRequest (.interval {}) 10 "hello" 30).kwargs = true
      ∧ (channelRequest (.interval {}) 10 "hello" 30).kwargs.lookup "message"
        = some (KwargValue.str "hello") :=
  (created_jobs_payload_shape parseOk1 (fun _ => Except.ok jobCron1)
    (fun _ => "x") ⟨10, 20, some (30, "bob")⟩ "hello" "d" {} {} none none none
    (channelRequest (.interval {}) 10 "hello" 30)).2.2 (by decide)

/-- On a failing `add_job`, the shared flow replies with exactly the
error text, ephemerally, and nothing else — provided it reaches an
`add_job` call at all (a DM target or a resolvable member). -/
theorem reminderFlow_error_reply (e : String)
    (addJob : AddJobRequest → Except String Job) (calcJob : Job → String)
    (ctx : Ctx) (trigger : TriggerRequest) (messageReason : String)
    (dmNote : String → String) (dmWhere : String → String → String)
    (channelWhere : Int → String → String → String)
    (memberErr : String) (finalMsg : String → String → String)
    (channelId : Int) (sendDmToUser : Option DUser)
    (bothDmAndChannel : Option Bool)
    (hfail : ∀ r, addJob r = Except.error e)
    (hwho : sendDmToUser.isSome ∨ ctx.member.isSome) :
    reminderFlow addJob calcJob ctx trigger messageReason dmNote dmWhere
      channelWhere memberErr finalMsg channelId sendDmToUser bothDmAndChannel
      = [CmdAction.send e true] := by
  unfold reminderFlow
  cases hdm : sendDmToUser with
  | some user => simp [hfail]
  | none =>
    cases hm : ctx.member with
    | none =>
      rw [hdm] at hwho
      rw [hm] at hwho
      simp at hwho
    | some m =>
      obtain ⟨memberId, memberName⟩ := m
      simp [hm, hfail]

/-- C7: when `add_job` raises a `ValueError`, each of the three add
commands replies with the error text as an ephemeral message and sends
no confirmation (the reply list is exactly that one ephemeral send). -/
theorem invalid_trigger_error_sent_ephemerally
    (parse : String → ParsedTime) (addJob : AddJobRequest → Except String Job)
    (calcJob : Job → String) (ctx : Ctx) (e : String) (pd : DT)
    (messageReason messageDate : String) (cronArgs : CronArgs)
    (intervalArgs : IntervalArgs) (differentChannel : Option GChannel)
    (sendDmToUser : Option DUser) (bothDmAndChannel : Option Bool)
    (hfail : ∀ r, addJob r = Except.error e)
    (herr : (parse messageDate).err = false)
    (hpt : (parse messageDate).parsedTime = some pd)
    (hwho : sendDmToUser.isSome ∨ ctx.member.isSome) :
    commandAdd parse addJob calcJob ctx messageReason messageDate
        differentChannel sendDmToUser bothDmAndChannel
      = [CmdAction.send e true]
    ∧ remindCron addJob calcJob ctx messageReason cronArgs differentChannel
        sendDmToUser bothDmAndChannel
      = [CmdAction.send e true]
    ∧ remindInterval addJob calcJob ctx messageReason intervalArgs
        differentChannel sendDmToUser bothDmAndChannel
      = [CmdAction.send e true] := by
  refine ⟨?_, ?_, ?_⟩
  · unfold commandAdd
    rw [if_neg (by rw [herr]; exact Bool.false_ne_true), hpt]
    exact reminderFlow_error_reply e addJob calcJob ctx _ _ _ _ _ _ _ _ _ _
      hfail hwho
  · unfold remindCron
    exact reminderFlow_error_reply e addJob calcJob ctx _ _ _ _ _ _ _ _ _ _
      hfail hwho
  · unfold remindInterval
    exact reminderFlow_error_reply e addJob calcJob ctx _ _ _ _ _ _ _ _ _ _
      hfail hwho

/-- C7 witness: a failing `add_job` on a concrete `/remind add` run. -/
theorem invalid_trigger_error_witness :
    commandAdd parseOk1 (fun _ => Except.error "ValueError: past run time")
        (fun _ => "") ⟨1, 2, some (3, "al")⟩ "hi" "tomorrow" none none none
      = [CmdAction.send "ValueError: past run time" true] :=
  (invalid_trigger_error_sent_ephemerally parseOk1
    (fun _ => Except.error "ValueError: past run time") (fun _ => "")
    ⟨1, 2, some (3, "al")⟩ "ValueError: past run time" ⟨2032, 9, 18, 0, 7, 13⟩
    "hi" "tomorrow" {} {} none none none (fun _ => rfl) rfl rfl
    (Or.inr rfl)).1

end DRBot
